import Mathlib

/-!
Shallow embedding of the particle-mesh N-body simulator
(`src/lib/Simulation.cpp`, `src/unnamed/part_000` = the full
`Simulation.cpp`, and the MPI sweep driver `src/app/NBody_Comparison.cpp`).

Modelling conventions:
* C++ `double` values are modelled by `ℚ` (exact arithmetic); the platform
  constant `M_PI` is abstracted as an explicit parameter `pi : ℚ`.
* The complex FFTW buffers (`fftw_complex*`) are modelled as total functions
  `ℕ → ℚ × ℚ` (real part, imaginary part); indices `≥ N³` are unused.
* The forward/backward DFT executed by FFTW is kept abstract: the Poisson
  scaling stage is a function of an arbitrary k-space buffer, since the
  claims under study do not depend on the transform values themselves.
* C++ `uint` index arithmetic (`/`, `%`) is `ℕ` division/modulo; the claims
  involve no index overflow.
-/

namespace UniverseSim

/-- A particle: position in unit-box coordinates and velocity
(`particle.hpp`, fields `position`, `velocity`, each `double[3]`). -/
structure particle where
  position : ℚ × ℚ × ℚ
  velocity : ℚ × ℚ × ℚ
deriving DecidableEq

/-- A particle group: shared scalar mass and an ordered particle sequence
(`particle.hpp`: `mass`, `particles`). -/
structure particle_group where
  mass : ℚ
  particles : List particle
deriving DecidableEq

/-- Simulation state fields, as stored by `Simulation`'s member
initialiser list (`src/unnamed/part_000`, lines 10-12). -/
structure Simulation where
  time_max : ℚ
  time_step : ℚ
  particle_collection : particle_group
  box_width : ℚ
  number_of_cells : ℕ
  expansion_factor : ℚ
deriving DecidableEq

/-- The configuration failures thrown by the constructor
(`src/unnamed/part_000`, lines 14-31), in source order. -/
inductive ConfigError where
  | nonPositiveTmax
  | nonPositiveTstep
  | nonPositiveWidth
  | nonPositiveEfactor
  | cellCountOverflow
deriving DecidableEq

/-- The advisory warnings the constructor writes to `std::cerr`
(`src/unnamed/part_000`, lines 27 and 33). -/
inductive Warning where
  | contracting
  | largeGrid
deriving DecidableEq

/-- The value `std::numeric_limits<int>::max()` for the 32-bit `int` of the
target platform. -/
def INT_MAX : ℕ := 2 ^ 31 - 1

/-- Whether a particle's position lies in the unit box `[0,1)³`. -/
def particle.inUnitBox (p : particle) : Prop :=
  0 ≤ p.position.1 ∧ p.position.1 < 1 ∧
  0 ≤ p.position.2.1 ∧ p.position.2.1 < 1 ∧
  0 ≤ p.position.2.2 ∧ p.position.2.2 < 1

instance (p : particle) : Decidable p.inUnitBox := by
  unfold particle.inUnitBox; infer_instance

/-- Whether construction completed (no exception thrown). -/
def constructionOk (e : Except ConfigError Simulation) : Bool :=
  match e with
  | .ok _ => true
  | .error _ => false

/-- The validating constructor `Simulation::Simulation`
(`src/unnamed/part_000`, lines 10-49).  Returns the warnings written to
standard error together with either the thrown configuration failure or the
constructed state.  The checks appear in source order; note that the
`e_factor < 1` warning is an `else if` of the `e_factor <= 0` throw, and
that `num_cells` (a C++ `uint`) is only checked against `INT_MAX` above,
never against zero. -/
def Simulation.construct (t_max t_step : ℚ) (collection : particle_group)
    (W : ℚ) (num_cells : ℕ) (e_factor : ℚ) :
    List Warning × Except ConfigError Simulation :=
  if t_max ≤ 0 then ([], .error .nonPositiveTmax)
  else if t_step ≤ 0 then ([], .error .nonPositiveTstep)
  else if W ≤ 0 then ([], .error .nonPositiveWidth)
  else if e_factor ≤ 0 then ([], .error .nonPositiveEfactor)
  else
    let w₁ : List Warning := if e_factor < 1 then [.contracting] else []
    if INT_MAX < num_cells then (w₁, .error .cellCountOverflow)
    else
      let w₂ : List Warning := if 400 < num_cells then [.largeGrid] else []
      (w₁ ++ w₂,
       .ok ⟨t_max, t_step, collection, W, num_cells, e_factor⟩)

/-! ## Mesh indexing -/

/-- Row-major flat index `k + N·(j + N·i)` used by every buffer access
(`src/unnamed/part_000`, line 98 and elsewhere). -/
def meshIdx (N i j k : ℕ) : ℕ := k + N * (j + N * i)

/-- Nearest-grid-point cell coordinate `std::floor(x * number_of_cells)`
stored into a `uint` (`src/unnamed/part_000`, lines 94-96). -/
def cellIndex (x : ℚ) (N : ℕ) : ℕ := (⌊x * (N : ℚ)⌋).toNat

/-- The three NGP cell coordinates of a particle. -/
def particle.cellTriple (p : particle) (N : ℕ) : ℕ × ℕ × ℕ :=
  (cellIndex p.position.1 N, cellIndex p.position.2.1 N,
   cellIndex p.position.2.2 N)

/-- Flat density-buffer index targeted by a particle
(`src/unnamed/part_000`, line 98). -/
def particle.targetIdx (p : particle) (N : ℕ) : ℕ :=
  meshIdx N (cellIndex p.position.1 N) (cellIndex p.position.2.1 N)
    (cellIndex p.position.2.2 N)

/-! ## Density deposition (per-particle accumulation,
`src/unnamed/part_000` lines 88-106) -/

/-- One loop iteration of `Simulation::fill_density_buffer`
(`src/unnamed/part_000`, lines 92-104): add
`mass / cell_width³` to the real part of the cell the particle occupies. -/
def depositParticle (mass W : ℚ) (N : ℕ) (buf : ℕ → ℚ × ℚ)
    (p : particle) : ℕ → ℚ × ℚ :=
  let cell_width : ℚ := W / (N : ℚ)
  let single_density : ℚ := mass / (cell_width * cell_width * cell_width)
  Function.update buf (p.targetIdx N)
    ((buf (p.targetIdx N)).1 + single_density, (buf (p.targetIdx N)).2)

/-- The member `Simulation::fill_density_buffer` of `src/unnamed/part_000`
(lines 88-106): zero the buffer (`memset`), then deposit every particle. -/
def fill_density_buffer (mass W : ℚ) (N : ℕ)
    (parts : List particle) : ℕ → ℚ × ℚ :=
  parts.foldl (depositParticle mass W N) fun _ => (0, 0)

/-! ## Density deposition (per-cell counting,
`src/lib/Simulation.cpp` lines 41-63) -/

/-- One loop iteration of `Simulation::bin_particles`
(`src/lib/Simulation.cpp`, lines 44-48): the `counts[i][j][k]++` update at
the particle's cell, on the counts array modelled as a function. -/
def binStep (N : ℕ) (counts : ℕ → ℕ → ℕ → ℕ) (p : particle) :
    ℕ → ℕ → ℕ → ℕ :=
  fun i j k =>
    if (i, j, k) = p.cellTriple N then counts i j k + 1 else counts i j k

/-- The function `Simulation::bin_particles` (`src/lib/Simulation.cpp`,
lines 41-50): count the particles falling in each cell, starting from an
all-zero counts array. -/
def bin_particles (N : ℕ) (parts : List particle) : ℕ → ℕ → ℕ → ℕ :=
  parts.foldl (binStep N) fun _ _ _ => 0

/-- The member `Simulation::fill_density_buffer` of `src/lib/Simulation.cpp`
(lines 52-63): for every cell `(i,j,k)` of the grid, assign
`counts[i][j][k] * mass / cell_width³` to the real part at
`idx(i,j,k)`, leaving the imaginary part as it was.  The triple loop over
`(i,j,k) ∈ [0,N)³` writes each flat index `n < N³` exactly once, at the
triple `(n / N², (n / N) % N, n % N)`; the model expresses the resulting
buffer directly as a function of `n`. -/
def fill_density_buffer_counting (mass W : ℚ) (N : ℕ)
    (parts : List particle) (prev : ℕ → ℚ × ℚ) : ℕ → ℚ × ℚ :=
  fun n =>
    if n < N ^ 3 then
      let cell_width : ℚ := W / (N : ℚ)
      ((bin_particles N parts (n / (N * N)) ((n / N) % N) (n % N) : ℚ)
          * mass / (cell_width * cell_width * cell_width),
       (prev n).2)
    else prev n

/-! ## Poisson solver (`src/unnamed/part_000` lines 108-128) -/

/-- The k-space stage of `Simulation::fill_potential_buffer`
(`src/unnamed/part_000`, lines 111-126), applied to the output of the
forward DFT (abstract here): zero the DC bin, then scale both components
of every index `n ∈ [1, N³)` by the Green's-function factor computed from
the raw decoded triple.  `pi` abstracts the platform constant `M_PI`. -/
def poisson_scale (pi W : ℚ) (N : ℕ) (buf : ℕ → ℚ × ℚ) : ℕ → ℚ × ℚ :=
  fun n =>
    if n = 0 then (0, 0)
    else if n < N ^ 3 then
      let i : ℕ := n / (N * N)
      let j : ℕ := (n / N) % N
      let k : ℕ := n % N
      let cell_num : ℚ := (N : ℚ)
      let norm_factor : ℚ :=
        -4 * pi * W * W / ((i * i + j * j + k * k : ℕ) : ℚ) *
          (1 / (8 * cell_num * cell_num * cell_num))
      ((buf n).1 * norm_factor, (buf n).2 * norm_factor)
    else buf n

/-- The Green's-function factor exactly as the specification writes it
(spec §4.2): `G(i,j,k) = −4π · W² / (i² + j² + k²) · 1/(8 · N_c³)`,
taken at the raw integer triple `(i, j, k)`. -/
def greens_factor_spec (pi W : ℚ) (N i j k : ℕ) : ℚ :=
  -4 * pi * W ^ 2 / ((i : ℚ) ^ 2 + (j : ℚ) ^ 2 + (k : ℚ) ^ 2) *
    (1 / (8 * (N : ℚ) ^ 3))

/-! ## Gradient operator (`src/unnamed/part_000` lines 130-167) -/

/-- High periodic neighbour: `i_high = i + 1` then
`while (i_high >= number_of_cells) i_high -= number_of_cells`
(`src/unnamed/part_000`, lines 141/148).  On the loop domain `i < N` the
while body runs at most once, since `i + 1 ≤ N`. -/
def wrapHigh (N i : ℕ) : ℕ := if N ≤ i + 1 then i + 1 - N else i + 1

/-- Low periodic neighbour: `i_low = i - 1` then
`while (i_low < 0) i_low += number_of_cells`
(`src/unnamed/part_000`, lines 142/149).  On the loop domain `i < N` the
while body runs at most once, only for `i = 0`. -/
def wrapLow (N i : ℕ) : ℕ := if i = 0 then N - 1 else i - 1

/-- The member `Simulation::calculate_gradient` (`src/unnamed/part_000`,
lines 130-167) at cell `(i,j,k)`: central differences of the real part of the
potential with periodic wrap, divided by `2 · cell_width`. -/
def calculate_gradient (W : ℚ) (N : ℕ) (pot : ℕ → ℚ × ℚ)
    (i j k : ℕ) : ℚ × ℚ × ℚ :=
  let cell_width : ℚ := W / (N : ℚ)
  (((pot (meshIdx N (wrapHigh N i) j k)).1 -
      (pot (meshIdx N (wrapLow N i) j k)).1) / (2 * cell_width),
   ((pot (meshIdx N i (wrapHigh N j) k)).1 -
      (pot (meshIdx N i (wrapLow N j) k)).1) / (2 * cell_width),
   ((pot (meshIdx N i j (wrapHigh N k))).1 -
      (pot (meshIdx N i j (wrapLow N k))).1) / (2 * cell_width))

/-! ## Integrator (`src/unnamed/part_000` lines 169-195) -/

/-- Loop `while (p < 0) { p += 1; }` (`src/unnamed/part_000`, lines 188/190/192). -/
def wrapUp (p : ℚ) : ℚ :=
  if p < 0 then wrapUp (p + 1) else p
termination_by (⌈-p⌉).toNat
decreasing_by
  have h₁ : (0 : ℤ) < ⌈-p⌉ := Int.ceil_pos.mpr (by linarith)
  have h₂ : ⌈-(p + 1)⌉ = ⌈-p⌉ - 1 := by
    rw [show -(p + 1) = -p - 1 by ring, Int.ceil_sub_one]
  omega

/-- Loop `while (p >= 1) { p -= 1; }` (`src/unnamed/part_000`, lines 189/191/193). -/
def wrapDown (p : ℚ) : ℚ :=
  if 1 ≤ p then wrapDown (p - 1) else p
termination_by (⌈p⌉).toNat
decreasing_by
  have h₁ : (0 : ℤ) < ⌈p⌉ := Int.ceil_pos.mpr (by linarith)
  have h₂ : ⌈p - 1⌉ = ⌈p⌉ - 1 := Int.ceil_sub_one p
  omega

/-- The periodic boundary conditions applied to one coordinate
(`src/unnamed/part_000`, lines 187-193): both while loops in sequence. -/
def applyBoundary (p : ℚ) : ℚ := wrapDown (wrapUp p)

/-- One loop iteration of `Simulation::update_particles`
(`src/unnamed/part_000`, lines 173-193): kick the velocity by
`−∇φ(i,j,k) · Δt` at the particle's NGP cell, drift the position by
`v · Δt` with the updated velocity, then wrap into `[0,1)`. -/
def updateParticle (grad : ℕ → ℕ → ℕ → ℚ × ℚ × ℚ) (dt : ℚ) (N : ℕ)
    (p : particle) : particle :=
  let i := cellIndex p.position.1 N
  let j := cellIndex p.position.2.1 N
  let k := cellIndex p.position.2.2 N
  let g := grad i j k
  let v₁ := p.velocity.1 + -1 * g.1 * dt
  let v₂ := p.velocity.2.1 + -1 * g.2.1 * dt
  let v₃ := p.velocity.2.2 + -1 * g.2.2 * dt
  { position := (applyBoundary (p.position.1 + v₁ * dt),
                 applyBoundary (p.position.2.1 + v₂ * dt),
                 applyBoundary (p.position.2.2 + v₃ * dt)),
    velocity := (v₁, v₂, v₃) }

/-- The member `Simulation::update_particles` (`src/unnamed/part_000`,
lines 169-195): compute the gradient of the potential, then update every
particle. -/
def Simulation.update_particles (s : Simulation) (pot : ℕ → ℚ × ℚ) :
    Simulation :=
  { s with
    particle_collection :=
      { s.particle_collection with
        particles := s.particle_collection.particles.map
          (updateParticle
            (calculate_gradient s.box_width s.number_of_cells pot)
            s.time_step s.number_of_cells) } }

/-! ## Box expansion (`src/unnamed/part_000` lines 197-206) -/

/-- The member `Simulation::box_expansion` (`src/unnamed/part_000`,
lines 197-206):
multiply the box width by the expansion factor and divide every velocity
component of every particle by it; nothing else changes. -/
def Simulation.box_expansion (s : Simulation) : Simulation :=
  { s with
    box_width := s.box_width * s.expansion_factor,
    particle_collection :=
      { s.particle_collection with
        particles := s.particle_collection.particles.map fun p =>
          { p with
            velocity := (p.velocity.1 / s.expansion_factor,
                         p.velocity.2.1 / s.expansion_factor,
                         p.velocity.2.2 / s.expansion_factor) } } }

/-! ## Sweep-driver wire protocol (`src/app/NBody_Comparison.cpp`) -/

/-- The two point-to-point messages the coordinator sends to every peer,
indexed by MPI tag (`src/app/NBody_Comparison.cpp`, lines 47-50):
tag 0 carries `minimum_expansion_factor`, tag 1 carries
`expansion_factor_step`. -/
def coordinator_sends (minimum_expansion_factor expansion_factor_step : ℚ) :
    ℕ → ℚ
  | 0 => minimum_expansion_factor
  | 1 => expansion_factor_step
  | _ => 0

/-- The expansion-factor step computed by the coordinator
(`src/app/NBody_Comparison.cpp`, line 43). -/
def driver_expansion_factor_step (a_min a_max : ℚ) (num_proc : ℕ) : ℚ :=
  (a_max - a_min) / ((num_proc : ℚ) - 1)

/-- The coordinator's own expansion factor
(`src/app/NBody_Comparison.cpp`, line 44, with `process_id = 0`). -/
def coordinator_expansion_factor (a_min step : ℚ) : ℚ :=
  a_min + (0 : ℚ) * step

/-- The expansion factor a peer of the given rank simulates with
(`src/app/NBody_Comparison.cpp`, lines 77-89).  The peer receives the
tag-0 message into its `expansion_factor_step` variable and the tag-1
message into its `minimum_expansion_factor` variable (lines 86-87), then
computes `minimum_expansion_factor + process_id * expansion_factor_step`
(line 89). -/
def peer_expansion_factor (msg : ℕ → ℚ) (rank : ℕ) : ℚ :=
  let expansion_factor_step := msg 0
  let minimum_expansion_factor := msg 1
  minimum_expansion_factor + (rank : ℚ) * expansion_factor_step

/-! ## Concrete sample inputs (used to instantiate theorems) -/

/-- The rational one half, built from raw components so that every
operation on it reduces structurally. -/
def sampleHalf : ℚ := ⟨1, 2, by omega, Nat.coprime_one_left 2⟩

/-- The rational one third, built from raw components. -/
def sampleThird : ℚ := ⟨1, 3, by omega, Nat.coprime_one_left 3⟩

/-- The rational one quarter, built from raw components. -/
def sampleQuarter : ℚ := ⟨1, 4, by omega, Nat.coprime_one_left 4⟩

/-- A concrete particle inside the unit box. -/
def sampleParticle : particle :=
  ⟨(sampleHalf, sampleThird, sampleQuarter), (1, -2, 3)⟩

/-- A concrete one-particle group. -/
def sampleGroup : particle_group := ⟨5, [sampleParticle]⟩

/-- A concrete valid simulation state. -/
def sampleSim : Simulation := ⟨1, 1, sampleGroup, 2, 4, 2⟩

/-- A concrete potential buffer. -/
def samplePot : ℕ → ℚ × ℚ := fun m => ((m : ℚ), 1)

/-- A concrete potential buffer with the same real parts as `samplePot`
but different imaginary parts. -/
def samplePotRe : ℕ → ℚ × ℚ := fun m => ((m : ℚ), 2)

/-- A concrete all-zero buffer (the state `memset` leaves behind). -/
def sampleZeroBuf : ℕ → ℚ × ℚ := fun _ => (0, 0)

/-! ## Helper lemmas -/

/-- NGP cell coordinates of in-box coordinates are within the grid. -/
theorem cellIndex_lt (x : ℚ) (N : ℕ) (h0 : 0 ≤ x) (h1 : x < 1)
    (hN : 0 < N) : cellIndex x N < N := by
  unfold cellIndex
  have hcast : (0 : ℚ) < (N : ℚ) := by exact_mod_cast hN
  have hup : ⌊x * (N : ℚ)⌋ < (N : ℤ) := by
    apply Int.floor_lt.mpr
    push_cast
    nlinarith
  have hlo : (0 : ℤ) ≤ ⌊x * (N : ℚ)⌋ := Int.floor_nonneg.mpr (by positivity)
  omega

/-- The flat row-major index of an in-grid cell is below `N³`. -/
theorem meshIdx_lt (N i j k : ℕ) (hi : i < N) (hj : j < N) (hk : k < N) :
    meshIdx N i j k < N ^ 3 := by
  unfold meshIdx
  calc k + N * (j + N * i) < N + N * (j + N * i) := by omega
    _ = N * ((1 + j) + N * i) := by ring
    _ ≤ N * (N + N * i) := Nat.mul_le_mul_left _ (by omega)
    _ = N * N * (1 + i) := by ring
    _ ≤ N * N * N := Nat.mul_le_mul_left _ (by omega)
    _ = N ^ 3 := by ring

/-- The flat buffer index targeted by an in-box particle is below `N³`. -/
theorem targetIdx_lt (p : particle) (N : ℕ) (hp : p.inUnitBox)
    (hN : 0 < N) : p.targetIdx N < N ^ 3 := by
  obtain ⟨h₁, h₂, h₃, h₄, h₅, h₆⟩ := hp
  exact meshIdx_lt N _ _ _ (cellIndex_lt _ _ h₁ h₂ hN)
    (cellIndex_lt _ _ h₃ h₄ hN) (cellIndex_lt _ _ h₅ h₆ hN)

/-- The result of the add-1 wrap loop is nonnegative. -/
theorem wrapUp_nonneg (p : ℚ) : 0 ≤ wrapUp p := by
  induction p using wrapUp.induct with
  | case1 p h ih => rw [wrapUp, if_pos h]; exact ih
  | case2 p h => rw [wrapUp, if_neg h]; linarith

/-- The result of the subtract-1 wrap loop is below one. -/
theorem wrapDown_lt_one (p : ℚ) : wrapDown p < 1 := by
  induction p using wrapDown.induct with
  | case1 p h ih => rw [wrapDown, if_pos h]; exact ih
  | case2 p h => rw [wrapDown, if_neg h]; linarith

/-- The subtract-1 wrap loop preserves nonnegativity. -/
theorem wrapDown_nonneg (p : ℚ) (hp : 0 ≤ p) : 0 ≤ wrapDown p := by
  induction p using wrapDown.induct with
  | case1 p h ih => rw [wrapDown, if_pos h]; exact ih (by linarith)
  | case2 p h => rw [wrapDown, if_neg h]; exact hp

/-- The combined boundary loops land in `[0, 1)`. -/
theorem applyBoundary_mem (p : ℚ) :
    0 ≤ applyBoundary p ∧ applyBoundary p < 1 :=
  ⟨wrapDown_nonneg _ (wrapUp_nonneg p), wrapDown_lt_one _⟩

/-- Re-encoding the decoded triple of a flat index gives the index back. -/
theorem meshIdx_encode_decode (N n : ℕ) :
    meshIdx N (n / (N * N)) ((n / N) % N) (n % N) = n := by
  unfold meshIdx
  rw [show n / (N * N) = n / N / N from (Nat.div_div_eq_div_mul n N N).symm,
    Nat.mod_add_div (n / N) N, Nat.mod_add_div n N]

/-- Decoding the flat index of an in-grid triple gives the triple back. -/
theorem meshIdx_decode (N i j k : ℕ) (hj : j < N) (hk : k < N) :
    meshIdx N i j k / (N * N) = i ∧ (meshIdx N i j k / N) % N = j ∧
      meshIdx N i j k % N = k := by
  have hN : 0 < N := by omega
  have hdivN : meshIdx N i j k / N = j + N * i := by
    unfold meshIdx
    rw [Nat.add_mul_div_left _ _ hN, Nat.div_eq_of_lt hk, Nat.zero_add]
  refine ⟨?_, ?_, ?_⟩
  · have hsmall : k + N * j < N * N := by
      calc k + N * j < N + N * j := by omega
        _ = N * (1 + j) := by ring
        _ ≤ N * N := Nat.mul_le_mul_left _ (by omega)
    have hrw : meshIdx N i j k = (k + N * j) + N * N * i := by
      unfold meshIdx; ring
    rw [hrw, Nat.add_mul_div_left _ _ (Nat.mul_pos hN hN),
      Nat.div_eq_of_lt hsmall, Nat.zero_add]
  · rw [hdivN, Nat.add_mul_mod_self_left, Nat.mod_eq_of_lt hj]
  · unfold meshIdx
    rw [Nat.add_mul_mod_self_left, Nat.mod_eq_of_lt hk]

/-- On the loop domain `i < N` the high-neighbour while loop computes
`(i + 1) % N`. -/
theorem wrapHigh_eq_mod (N i : ℕ) (h : i < N) :
    wrapHigh N i = (i + 1) % N := by
  unfold wrapHigh
  rcases Nat.lt_or_ge (i + 1) N with hlt | hge
  · rw [if_neg (by omega), Nat.mod_eq_of_lt hlt]
  · have heq : i + 1 = N := by omega
    rw [if_pos (by omega), heq, Nat.sub_self, Nat.mod_self]

/-- On the loop domain `i < N` the low-neighbour while loop computes
`(i + N − 1) % N`, i.e. `(i − 1) mod N` in integer terms. -/
theorem wrapLow_eq_mod (N i : ℕ) (h : i < N) :
    wrapLow N i = (i + N - 1) % N := by
  unfold wrapLow
  by_cases h0 : i = 0
  · subst h0
    rw [if_pos rfl, Nat.zero_add, Nat.mod_eq_of_lt (by omega)]
  · rw [if_neg h0, show i + N - 1 = (i - 1) + N by omega,
      Nat.add_mod_right, Nat.mod_eq_of_lt (by omega)]

/-- Projecting the first component through a buffer update. -/
theorem fst_update (buf : ℕ → ℚ × ℚ) (idx n : ℕ) (v : ℚ × ℚ) :
    (Function.update buf idx v n).1 =
      Function.update (fun m => (buf m).1) idx v.1 n := by
  by_cases h : n = idx <;> simp [Function.update_apply, h]

/-- A buffer update that keeps the second component leaves all imaginary
parts unchanged. -/
theorem snd_update (buf : ℕ → ℚ × ℚ) (idx n : ℕ) (r : ℚ) :
    (Function.update buf idx (r, (buf idx).2) n).2 = (buf n).2 := by
  by_cases h : n = idx
  · subst h; simp
  · simp [Function.update_apply, h]

/-- Depositing one particle raises the total of the real parts by exactly
one particle's density contribution. -/
theorem sum_depositParticle (mass W : ℚ) (N : ℕ) (buf : ℕ → ℚ × ℚ)
    (p : particle) (h : p.targetIdx N ∈ Finset.range (N ^ 3)) :
    ∑ n ∈ Finset.range (N ^ 3), ((depositParticle mass W N buf p) n).1
      = (∑ n ∈ Finset.range (N ^ 3), (buf n).1)
        + mass / ((W / (N : ℚ)) * (W / (N : ℚ)) * (W / (N : ℚ))) := by
  simp only [depositParticle]
  rw [Finset.sum_congr rfl fun n _ => fst_update buf (p.targetIdx N) n _]
  rw [Finset.sum_update_of_mem h]
  rw [Finset.sum_eq_sum_diff_singleton_add h fun n => (buf n).1]
  ring

/-- Folding the deposition over a particle list adds one density
contribution per particle to the total of the real parts. -/
theorem sum_foldl_deposit (mass W : ℚ) (N : ℕ) (hN : 0 < N) :
    ∀ (parts : List particle) (buf : ℕ → ℚ × ℚ),
      (∀ p ∈ parts, p.inUnitBox) →
      ∑ n ∈ Finset.range (N ^ 3),
          ((parts.foldl (depositParticle mass W N) buf) n).1
        = (∑ n ∈ Finset.range (N ^ 3), (buf n).1)
          + parts.length *
            (mass / ((W / (N : ℚ)) * (W / (N : ℚ)) * (W / (N : ℚ)))) := by
  intro parts
  induction parts with
  | nil => intro buf _; simp
  | cons p ps ih =>
    intro buf hmem
    have hp : p.inUnitBox := hmem p (List.mem_cons_self p ps)
    have hidx : p.targetIdx N ∈ Finset.range (N ^ 3) :=
      Finset.mem_range.mpr (targetIdx_lt p N hp hN)
    rw [List.foldl_cons,
      ih _ fun q hq => hmem q (List.mem_cons_of_mem p hq),
      sum_depositParticle mass W N buf p hidx]
    push_cast [List.length_cons]
    ring

/-- The deposition fold never writes an imaginary part. -/
theorem snd_foldl_deposit (mass W : ℚ) (N : ℕ) :
    ∀ (parts : List particle) (buf : ℕ → ℚ × ℚ) (n : ℕ),
      ((parts.foldl (depositParticle mass W N) buf) n).2 = (buf n).2 := by
  intro parts
  induction parts with
  | nil => intro buf n; rfl
  | cons p ps ih =>
    intro buf n
    rw [List.foldl_cons, ih]
    simp only [depositParticle]
    exact snd_update buf (p.targetIdx N) n _

/-- The value at one index after the deposition fold: the starting value
plus one density contribution per particle targeting that index. -/
theorem fst_foldl_deposit (mass W : ℚ) (N : ℕ) :
    ∀ (parts : List particle) (buf : ℕ → ℚ × ℚ) (n : ℕ),
      ((parts.foldl (depositParticle mass W N) buf) n).1
        = (buf n).1
          + (parts.countP fun p => decide (p.targetIdx N = n)) *
            (mass / ((W / (N : ℚ)) * (W / (N : ℚ)) * (W / (N : ℚ)))) := by
  intro parts
  induction parts with
  | nil => intro buf n; simp
  | cons p ps ih =>
    intro buf n
    rw [List.foldl_cons, ih, List.countP_cons]
    simp only [depositParticle]
    by_cases h : n = p.targetIdx N
    · subst h
      rw [Function.update_same]
      simp only [decide_eq_true_eq, if_pos rfl]
      push_cast
      ring
    · rw [Function.update_noteq h]
      have hne : ¬ (p.targetIdx N = n) := fun hc => h hc.symm
      simp only [decide_eq_true_eq, if_neg hne]
      push_cast
      ring

/-- The per-cell count after the binning fold: the starting count plus the
number of particles whose cell triple is the given one. -/
theorem bin_particles_foldl (N : ℕ) :
    ∀ (parts : List particle) (acc : ℕ → ℕ → ℕ → ℕ) (i j k : ℕ),
      (parts.foldl (binStep N) acc) i j k
        = acc i j k +
          parts.countP fun p => decide ((i, j, k) = p.cellTriple N) := by
  intro parts
  induction parts with
  | nil => intro acc i j k; simp
  | cons p ps ih =>
    intro acc i j k
    rw [List.foldl_cons, ih, List.countP_cons]
    unfold binStep
    by_cases h : (i, j, k) = p.cellTriple N
    · rw [if_pos h]
      simp only [decide_eq_true_eq, if_pos h]
      omega
    · rw [if_neg h]
      simp only [decide_eq_true_eq, if_neg h]
      omega

/-- For an in-box particle, targeting flat index `n` is the same as having
the decoded triple of `n` as cell triple. -/
theorem targetIdx_eq_iff (p : particle) (N n : ℕ) (hp : p.inUnitBox)
    (hN : 0 < N) :
    p.targetIdx N = n ↔
      (n / (N * N), (n / N) % N, n % N) = p.cellTriple N := by
  obtain ⟨h₁, h₂, h₃, h₄, h₅, h₆⟩ := hp
  have hci : cellIndex p.position.1 N < N := cellIndex_lt _ _ h₁ h₂ hN
  have hcj : cellIndex p.position.2.1 N < N := cellIndex_lt _ _ h₃ h₄ hN
  have hck : cellIndex p.position.2.2 N < N := cellIndex_lt _ _ h₅ h₆ hN
  constructor
  · rintro rfl
    obtain ⟨d₁, d₂, d₃⟩ := meshIdx_decode N (cellIndex p.position.1 N)
      (cellIndex p.position.2.1 N) (cellIndex p.position.2.2 N) hcj hck
    unfold particle.targetIdx particle.cellTriple
    rw [d₁, d₂, d₃]
  · intro h
    have henc := meshIdx_encode_decode N n
    unfold particle.targetIdx
    unfold particle.cellTriple at h
    obtain ⟨e₁, e₂⟩ := Prod.mk.injEq _ _ _ _ |>.mp h
    obtain ⟨e₂, e₃⟩ := Prod.mk.injEq _ _ _ _ |>.mp e₂
    rw [← e₁, ← e₂, ← e₃]
    exact henc

/-! ## Claim theorems -/

/-- C1 (code-bug evidence): the coordinator does send the minimum
expansion factor with tag 0 and the step with tag 1, and its own factor is
`a_min`; but at the spec's S4 sweep (`a_min = 1`, `a_max = 1.06`, 4
workers, step `0.02`) the rank-2 peer simulates with `2.02`, not the
claimed `a_min + 2·step = 1.04`, because the peer receives the tag-0
message into its `expansion_factor_step` variable and the tag-1 message
into its `minimum_expansion_factor` variable, swapped relative to the
coordinator's sends. -/
theorem c1_peer_tag_swap :
    coordinator_sends 1 (driver_expansion_factor_step 1 (53/50) 4) 0 = 1
    ∧ coordinator_sends 1 (driver_expansion_factor_step 1 (53/50) 4) 1
        = 1/50
    ∧ coordinator_expansion_factor 1
        (driver_expansion_factor_step 1 (53/50) 4) = 1
    ∧ peer_expansion_factor
        (coordinator_sends 1 (driver_expansion_factor_step 1 (53/50) 4)) 2
        = 101/50
    ∧ (1 : ℚ) + 2 * driver_expansion_factor_step 1 (53/50) 4 = 26/25
    ∧ (101/50 : ℚ) ≠ 26/25 := by
  refine ⟨rfl, ?_, ?_, ?_, ?_, by norm_num⟩ <;>
    norm_num [coordinator_sends, driver_expansion_factor_step,
      coordinator_expansion_factor, peer_expansion_factor]

/-- C2 (counterexample): constructing with cell count `N_c = 0` (and all
other inputs valid) succeeds without any configuration failure and without
warnings, refuting the claim that `N_c = 0` is rejected. -/
theorem c2_zero_cells_accepted :
    (Simulation.construct 1 1 sampleGroup 1 0 1).2
        = Except.ok ⟨1, 1, sampleGroup, 1, 0, 1⟩
    ∧ (Simulation.construct 1 1 sampleGroup 1 0 1).1 = [] :=
  ⟨rfl, rfl⟩

/-- C2 (amended): construction fails exactly for non-positive `t_max`,
`Δt`, `W`, `a`, or for `N_c > INT_MAX` — `N_c = 0` is accepted — with the
failure kinds matching the first violated check in source order; the
contracting warning is emitted exactly when the four positivity checks
pass and `a < 1`, and the large-grid warning exactly when construction
succeeds with `N_c > 400`. -/
theorem c2_construct_validation (t T : ℚ) (pg : particle_group) (W : ℚ)
    (N : ℕ) (a : ℚ) :
    (constructionOk (Simulation.construct t T pg W N a).2 = true ↔
      (0 < t ∧ 0 < T ∧ 0 < W ∧ 0 < a ∧ N ≤ INT_MAX))
    ∧ (Warning.contracting ∈ (Simulation.construct t T pg W N a).1 ↔
        (0 < t ∧ 0 < T ∧ 0 < W ∧ 0 < a ∧ a < 1))
    ∧ (Warning.largeGrid ∈ (Simulation.construct t T pg W N a).1 ↔
        (0 < t ∧ 0 < T ∧ 0 < W ∧ 0 < a ∧ N ≤ INT_MAX ∧ 400 < N))
    ∧ ((Simulation.construct t T pg W N a).2 = .error .nonPositiveTmax ↔
        t ≤ 0)
    ∧ ((Simulation.construct t T pg W N a).2 = .error .nonPositiveTstep ↔
        (0 < t ∧ T ≤ 0))
    ∧ ((Simulation.construct t T pg W N a).2 = .error .nonPositiveWidth ↔
        (0 < t ∧ 0 < T ∧ W ≤ 0))
    ∧ ((Simulation.construct t T pg W N a).2 = .error .nonPositiveEfactor ↔
        (0 < t ∧ 0 < T ∧ 0 < W ∧ a ≤ 0))
    ∧ ((Simulation.construct t T pg W N a).2 = .error .cellCountOverflow ↔
        (0 < t ∧ 0 < T ∧ 0 < W ∧ 0 < a ∧ INT_MAX < N)) := by
  unfold Simulation.construct constructionOk
  split_ifs with h₁ h₂ h₃ h₄ h₅ h₆ h₇ <;>
    simp_all [not_le, not_lt]

/-- C2 (instantiation): the amended validation characterisation applied at
a concrete valid contracting configuration. -/
theorem c2_construct_validation_witness :
    constructionOk (Simulation.construct 1 1 sampleGroup 1 500 sampleHalf).2
        = true
    ∧ Warning.contracting ∈ (Simulation.construct 1 1 sampleGroup 1 500 sampleHalf).1
    ∧ Warning.largeGrid ∈ (Simulation.construct 1 1 sampleGroup 1 500 sampleHalf).1 :=
  ⟨(c2_construct_validation 1 1 sampleGroup 1 500 sampleHalf).1.mpr
      (by decide),
   (c2_construct_validation 1 1 sampleGroup 1 500 sampleHalf).2.1.mpr
      (by decide),
   (c2_construct_validation 1 1 sampleGroup 1 500 sampleHalf).2.2.1.mpr
      (by decide)⟩

/-- C3: in the Poisson step, every index `n ∈ [1, N³)` is scaled, in both
components, by exactly the spec's literal Green's-function factor
`−4π·W²/(i²+j²+k²) · 1/(8·N³)` taken at the raw decoded triple
`(n / N², (n / N) % N, n % N)`. -/
theorem c3_poisson_scale_formula (pi W : ℚ) (N : ℕ) (buf : ℕ → ℚ × ℚ)
    (n : ℕ) (h₁ : 1 ≤ n) (h₂ : n < N ^ 3) :
    poisson_scale pi W N buf n =
      ((buf n).1 *
          greens_factor_spec pi W N (n / (N * N)) ((n / N) % N) (n % N),
       (buf n).2 *
          greens_factor_spec pi W N (n / (N * N)) ((n / N) % N) (n % N)) := by
  have hn : n ≠ 0 := by omega
  unfold poisson_scale greens_factor_spec
  rw [if_neg hn, if_pos h₂]
  simp only [Prod.mk.injEq]
  constructor <;> · push_cast; ring

/-- C3 (instantiation): the Poisson scaling law applied at the concrete
index 1 of a 2³ mesh. -/
theorem c3_poisson_scale_formula_witness :
    ((1 : ℕ) ≤ 1 ∧ 1 < 2 ^ 3) ∧
    poisson_scale 3 2 2 samplePot 1 =
      ((samplePot 1).1 *
          greens_factor_spec 3 2 2 (1 / (2 * 2)) ((1 / 2) % 2) (1 % 2),
       (samplePot 1).2 *
          greens_factor_spec 3 2 2 (1 / (2 * 2)) ((1 / 2) % 2) (1 % 2)) :=
  ⟨⟨by decide, by decide⟩,
   c3_poisson_scale_formula 3 2 2 samplePot 1 (by decide) (by decide)⟩

/-- C6: after the Poisson step the DC bin (index 0) of the k-space buffer
is exactly `0 + 0i`, whatever the forward DFT produced. -/
theorem c6_dc_bin_zero (pi W : ℚ) (N : ℕ) (buf : ℕ → ℚ × ℚ) :
    poisson_scale pi W N buf 0 = (0, 0) := rfl

/-- C4: after deposition over an in-box particle group, the real parts of
the density buffer sum to `N_p · mass / (W/N_c)³` exactly, and every
imaginary part is zero. -/
theorem c4_mass_conservation (mass W : ℚ) (N : ℕ) (parts : List particle)
    (hN : 0 < N) (hparts : ∀ p ∈ parts, p.inUnitBox) :
    (∑ n ∈ Finset.range (N ^ 3),
        ((fill_density_buffer mass W N parts) n).1)
      = (parts.length : ℚ) * (mass / (W / (N : ℚ)) ^ 3)
    ∧ ∀ n, ((fill_density_buffer mass W N parts) n).2 = 0 := by
  constructor
  · unfold fill_density_buffer
    rw [sum_foldl_deposit mass W N hN parts _ hparts]
    simp only [Finset.sum_const_zero]
    ring
  · intro n
    unfold fill_density_buffer
    rw [snd_foldl_deposit]

/-- C4 (instantiation): mass conservation for one concrete particle on a
2³ mesh. -/
theorem c4_mass_conservation_witness :
    ((0 : ℕ) < 2 ∧ ∀ p ∈ [sampleParticle], p.inUnitBox) ∧
    (∑ n ∈ Finset.range (2 ^ 3),
        ((fill_density_buffer 5 2 2 [sampleParticle]) n).1)
      = ([sampleParticle].length : ℚ) * (5 / (2 / ((2 : ℕ) : ℚ)) ^ 3)
    ∧ ∀ n, ((fill_density_buffer 5 2 2 [sampleParticle]) n).2 = 0 :=
  ⟨⟨by decide, by decide⟩,
   c4_mass_conservation 5 2 2 [sampleParticle] (by decide) (by decide)⟩

/-- C5: after one integrator step followed by box expansion, every
particle position lies in `[0, 1)` on every axis. -/
theorem c5_positions_in_unit_box (s : Simulation) (pot : ℕ → ℚ × ℚ)
    (_hbefore : ∀ p ∈ s.particle_collection.particles, p.inUnitBox) :
    ∀ q ∈ ((s.update_particles pot).box_expansion).particle_collection.particles,
      q.inUnitBox := by
  intro q hq
  simp only [Simulation.box_expansion, Simulation.update_particles,
    List.map_map, List.mem_map, Function.comp] at hq
  obtain ⟨p, hp, rfl⟩ := hq
  unfold particle.inUnitBox updateParticle
  simp only
  exact ⟨(applyBoundary_mem _).1, (applyBoundary_mem _).2,
    (applyBoundary_mem _).1, (applyBoundary_mem _).2,
    (applyBoundary_mem _).1, (applyBoundary_mem _).2⟩

/-- C5 (instantiation): positional bounds after one step of the concrete
sample simulation. -/
theorem c5_positions_in_unit_box_witness :
    (∀ p ∈ sampleSim.particle_collection.particles, p.inUnitBox) ∧
    ∀ q ∈ ((sampleSim.update_particles samplePot).box_expansion).particle_collection.particles,
      q.inUnitBox :=
  ⟨by decide, c5_positions_in_unit_box sampleSim samplePot (by decide)⟩

/-- C7: the gradient field is the central difference of the real part of
the potential with periodic wrap — the high neighbour is `(i+1) mod N_c`,
the low neighbour `(i−1) mod N_c` (written `(i+N_c−1) mod N_c` over ℕ, so
cell `0` uses `N_c − 1`) — and potentials agreeing on real parts yield
identical gradients, so imaginary parts never influence the result. -/
theorem c7_gradient_central_difference (W : ℚ) (N : ℕ)
    (pot pot' : ℕ → ℚ × ℚ) (i j k : ℕ)
    (hi : i < N) (hj : j < N) (hk : k < N) :
    calculate_gradient W N pot i j k =
      (((pot (meshIdx N ((i + 1) % N) j k)).1 -
          (pot (meshIdx N ((i + N - 1) % N) j k)).1) / (2 * (W / (N : ℚ))),
       ((pot (meshIdx N i ((j + 1) % N) k)).1 -
          (pot (meshIdx N i ((j + N - 1) % N) k)).1) / (2 * (W / (N : ℚ))),
       ((pot (meshIdx N i j ((k + 1) % N))).1 -
          (pot (meshIdx N i j ((k + N - 1) % N))).1) / (2 * (W / (N : ℚ))))
    ∧ ((∀ m, (pot m).1 = (pot' m).1) →
        calculate_gradient W N pot i j k =
          calculate_gradient W N pot' i j k) := by
  constructor
  · unfold calculate_gradient
    rw [wrapHigh_eq_mod N i hi, wrapHigh_eq_mod N j hj,
      wrapHigh_eq_mod N k hk, wrapLow_eq_mod N i hi,
      wrapLow_eq_mod N j hj, wrapLow_eq_mod N k hk]
  · intro h
    unfold calculate_gradient
    simp only [h]

/-- C7 (instantiation): the central-difference law at cell `(0,1,1)` of a
2³ mesh, where the low `x`-neighbour wraps to `N_c − 1 = 1`, and the
gradient's independence from imaginary parts on two concrete potentials
agreeing in real parts. -/
theorem c7_gradient_central_difference_witness :
    ((0 : ℕ) < 2 ∧ (1 : ℕ) < 2) ∧
    (calculate_gradient 1 2 samplePot 0 1 1 =
      (((samplePot (meshIdx 2 ((0 + 1) % 2) 1 1)).1 -
          (samplePot (meshIdx 2 ((0 + 2 - 1) % 2) 1 1)).1) /
            (2 * (1 / ((2 : ℕ) : ℚ))),
       ((samplePot (meshIdx 2 0 ((1 + 1) % 2) 1)).1 -
          (samplePot (meshIdx 2 0 ((1 + 2 - 1) % 2) 1)).1) /
            (2 * (1 / ((2 : ℕ) : ℚ))),
       ((samplePot (meshIdx 2 0 1 ((1 + 1) % 2))).1 -
          (samplePot (meshIdx 2 0 1 ((1 + 2 - 1) % 2))).1) /
            (2 * (1 / ((2 : ℕ) : ℚ))))
     ∧ ((∀ m, (samplePot m).1 = (samplePotRe m).1) →
         calculate_gradient 1 2 samplePot 0 1 1 =
           calculate_gradient 1 2 samplePotRe 0 1 1))
    ∧ calculate_gradient 1 2 samplePot 0 1 1 =
        calculate_gradient 1 2 samplePotRe 0 1 1 :=
  ⟨⟨by decide, by decide⟩,
   c7_gradient_central_difference 1 2 samplePot samplePotRe 0 1 1
     (by decide) (by decide) (by decide),
   (c7_gradient_central_difference 1 2 samplePot samplePotRe 0 1 1
     (by decide) (by decide) (by decide)).2 fun _ => rfl⟩

/-- C8: one box-expansion step multiplies the width by the expansion
factor, divides every velocity component by it, and changes nothing else
— positions, step parameters, cell count, factor and mass are unchanged —
and for positive width the width strictly increases when `a > 1` and
strictly decreases when `a < 1`. -/
theorem c8_box_expansion_effect (s : Simulation) :
    s.box_expansion.box_width = s.box_width * s.expansion_factor
    ∧ s.box_expansion.particle_collection.particles.map particle.position
        = s.particle_collection.particles.map particle.position
    ∧ (s.box_expansion.particle_collection.particles.map particle.velocity
        = s.particle_collection.particles.map fun p =>
            (p.velocity.1 / s.expansion_factor,
             p.velocity.2.1 / s.expansion_factor,
             p.velocity.2.2 / s.expansion_factor))
    ∧ s.box_expansion.time_max = s.time_max
    ∧ s.box_expansion.time_step = s.time_step
    ∧ s.box_expansion.number_of_cells = s.number_of_cells
    ∧ s.box_expansion.expansion_factor = s.expansion_factor
    ∧ s.box_expansion.particle_collection.mass = s.particle_collection.mass
    ∧ (0 < s.box_width → 1 < s.expansion_factor →
        s.box_width < s.box_expansion.box_width)
    ∧ (0 < s.box_width → s.expansion_factor < 1 →
        s.box_expansion.box_width < s.box_width) := by
  refine ⟨rfl, ?_, ?_, rfl, rfl, rfl, rfl, rfl, ?_, ?_⟩
  · simp [Simulation.box_expansion, List.map_map, Function.comp]
  · simp [Simulation.box_expansion, List.map_map, Function.comp]
  · intro hW ha
    show s.box_width < s.box_width * s.expansion_factor
    nlinarith
  · intro hW ha
    show s.box_width * s.expansion_factor < s.box_width
    nlinarith

/-- C8 (instantiation): the expansion effect on the concrete sample
simulation, whose factor `3/2` strictly grows its width `2` to `3`. -/
theorem c8_box_expansion_effect_witness :
    sampleSim.box_expansion.box_width = 4
    ∧ sampleSim.box_width < sampleSim.box_expansion.box_width
    ∧ sampleSim.box_expansion.particle_collection.particles.map
        particle.position
        = sampleSim.particle_collection.particles.map particle.position :=
  ⟨by rw [(c8_box_expansion_effect sampleSim).1]; norm_num [sampleSim],
   (c8_box_expansion_effect sampleSim).2.2.2.2.2.2.2.2.1
     (by decide) (by decide),
   (c8_box_expansion_effect sampleSim).2.1⟩

/-- C9: for an in-box particle on a non-degenerate grid, each NGP cell
coordinate lies in `[0, N_c)` and the flat target index lies below
`N_c³`, so the deposition write and the integrator's gradient lookup are
in bounds. -/
theorem c9_indices_in_bounds (p : particle) (N : ℕ) (hN : 0 < N)
    (hp : p.inUnitBox) :
    cellIndex p.position.1 N < N ∧ cellIndex p.position.2.1 N < N ∧
    cellIndex p.position.2.2 N < N ∧ p.targetIdx N < N ^ 3 := by
  obtain ⟨h₁, h₂, h₃, h₄, h₅, h₆⟩ := hp
  exact ⟨cellIndex_lt _ _ h₁ h₂ hN, cellIndex_lt _ _ h₃ h₄ hN,
    cellIndex_lt _ _ h₅ h₆ hN,
    targetIdx_lt p N ⟨h₁, h₂, h₃, h₄, h₅, h₆⟩ hN⟩

/-- C9 (instantiation): in-bounds indices for the concrete sample
particle on a 4³ mesh. -/
theorem c9_indices_in_bounds_witness :
    ((0 : ℕ) < 4 ∧ sampleParticle.inUnitBox) ∧
    (cellIndex sampleParticle.position.1 4 < 4 ∧
     cellIndex sampleParticle.position.2.1 4 < 4 ∧
     cellIndex sampleParticle.position.2.2 4 < 4 ∧
     sampleParticle.targetIdx 4 < 4 ^ 3) :=
  ⟨⟨by decide, by decide⟩,
   c9_indices_in_bounds sampleParticle 4 (by decide) (by decide)⟩

/-- C10: the per-particle accumulation deposition and the per-cell
counting deposition produce the same density buffer (on every in-range
index) in exact arithmetic, given in-box particles and a previous buffer
with zero imaginary parts. -/
theorem c10_deposition_equivalence (mass W : ℚ) (N : ℕ)
    (parts : List particle) (prev : ℕ → ℚ × ℚ) (hN : 0 < N)
    (hparts : ∀ p ∈ parts, p.inUnitBox)
    (hprev : ∀ n, n < N ^ 3 → (prev n).2 = 0) :
    ∀ n, n < N ^ 3 →
      fill_density_buffer mass W N parts n
        = fill_density_buffer_counting mass W N parts prev n := by
  intro n hn
  unfold fill_density_buffer fill_density_buffer_counting bin_particles
  rw [if_pos hn]
  have hcount : (parts.countP fun p => decide (p.targetIdx N = n))
      = parts.countP fun p =>
          decide ((n / (N * N), (n / N) % N, n % N) = p.cellTriple N) := by
    apply List.countP_congr
    intro p hp
    simpa using targetIdx_eq_iff p N n (hparts p hp) hN
  apply Prod.ext_iff.mpr
  constructor
  · rw [fst_foldl_deposit, bin_particles_foldl, hcount]
    push_cast
    ring
  · rw [snd_foldl_deposit]
    exact (hprev n hn).symm

/-- C10 (instantiation): equivalence of the two depositions for one
concrete particle on a 2³ mesh over the zeroed buffer. -/
theorem c10_deposition_equivalence_witness :
    ((0 : ℕ) < 2 ∧ (∀ p ∈ [sampleParticle], p.inUnitBox) ∧
      ∀ n, n < 2 ^ 3 → (sampleZeroBuf n).2 = 0) ∧
    ∀ n, n < 2 ^ 3 →
      fill_density_buffer 5 2 2 [sampleParticle] n
        = fill_density_buffer_counting 5 2 2 [sampleParticle]
            sampleZeroBuf n :=
  ⟨⟨by decide, by decide, fun _ _ => rfl⟩,
   c10_deposition_equivalence 5 2 2 [sampleParticle] sampleZeroBuf
     (by decide) (by decide) fun _ _ => rfl⟩

end UniverseSim
